import Mathlib

/-!
Verification of the background-removal / compositing tool.

Shallow embedding of the two core source modules:

 * `src/bg_remove.py` — Direct-Inference segmentation backend (`remove_background`),
   its fragment-removal post-filter (threshold 127, 8-connectivity connected
   components, keep the largest component), and the batch thread `RemoveThread.run`.
 * `src/합성기.py` — the composer: `ComposerState` (pools, randomized
   selection/placement, `locked` flag), the layout randomizer
   (`randomize` / `place_elements`), and the deterministic compositor `compose`.

Machine integers are modelled as `Nat`/`Int`; Python floats as `ℚ` (all float
constants appearing in the source are exactly representable and all comparisons
they feed are far from rounding boundaries; `int(1800*0.33) = 594` and
`int(1800*0.67) = 1206` hold both for IEEE doubles and for the rationals used
here).  Image pixel data is modelled as functions; resampling kernels
(PIL `Image.resize` content for BILINEAR / LANCZOS) are abstracted as a
function parameter `Resample`, while the produced dimensions are explicit.
-/

set_option maxRecDepth 20000

namespace BgRemove

/-! ## Pixel grids, thresholding and 8-connectivity

Embedding of the fragment-removal block of `remove_background`
(`src/bg_remove.py` lines 77–87):

```
_, binary = cv2.threshold(mask, 127, 255, cv2.THRESH_BINARY)
num_labels, labels, stats, _ = cv2.connectedComponentsWithStats(binary, connectivity=8)
if num_labels > 2:
    largest = 1 + int(np.argmax(stats[1:, cv2.CC_STAT_AREA]))
    binary  = np.where(labels == largest, 255, 0).astype(np.uint8)
    mask = cv2.bitwise_and(mask, binary)
```
-/

/-- A pixel coordinate on an `H × W` grid (row, column). -/
abbrev Pixel (H W : Nat) := Fin H × Fin W

/-- A single-channel 8-bit mask (values intended in `[0, 255]`). -/
abbrev Mask (H W : Nat) := Pixel H W → Nat

/-- `near a b` : the two coordinates differ by at most 1. -/
def near (a b : Nat) : Bool := a ≤ b + 1 && b ≤ a + 1

/-- 8-neighbourhood adjacency (`connectivity=8`): distinct pixels whose rows and
columns each differ by at most 1. -/
def adj {H W : Nat} (p q : Pixel H W) : Bool :=
  decide (p ≠ q) && near p.1.val q.1.val && near p.2.val q.2.val

/-- `cv2.threshold(mask, 127, 255, cv2.THRESH_BINARY)` classifies a pixel as
foreground iff its value exceeds 127. -/
def fg {H W : Nat} (m : Mask H W) (p : Pixel H W) : Bool :=
  decide (127 < m p)

/-- The thresholded binary image itself (foreground ↦ 255, background ↦ 0). -/
def binaryOf {H W : Nat} (m : Mask H W) : Mask H W :=
  fun p => if fg m p then 255 else 0

/-- One saturation step of component growth: add every foreground pixel adjacent
to the current set. -/
def step {H W : Nat} (m : Mask H W) (S : Finset (Pixel H W)) : Finset (Pixel H W) :=
  S ∪ Finset.univ.filter (fun q => fg m q = true ∧ ∃ p ∈ S, adj p q = true)

/-- `n`-fold iteration of `step` starting from the singleton `{p}`. -/
def compIter {H W : Nat} (m : Mask H W) : Nat → Pixel H W → Finset (Pixel H W)
  | 0, p => {p}
  | n + 1, p => step m (compIter m n p)

/-- The 8-connected component of `p` in the thresholded mask (as computed by
`cv2.connectedComponentsWithStats` for a foreground pixel `p`): saturation of
`{p}` under `step`, reached after at most `H * W` iterations. -/
def comp {H W : Nat} (m : Mask H W) (p : Pixel H W) : Finset (Pixel H W) :=
  compIter m (H * W) p

/-- One hop of foreground connectivity: `b` is a foreground pixel 8-adjacent to `a`. -/
def connStep {H W : Nat} (m : Mask H W) (a b : Pixel H W) : Prop :=
  adj a b = true ∧ fg m b = true

/-- Specification-level connectivity: reflexive-transitive closure of `connStep`. -/
def conn {H W : Nat} (m : Mask H W) : Pixel H W → Pixel H W → Prop :=
  Relation.ReflTransGen (connStep m)

/-- Row-major index of a pixel, the scan order used to enumerate component labels. -/
def idx {H W : Nat} (p : Pixel H W) : Nat := p.1.val * W + p.2.val

/-- Row-major order on pixels. -/
def pixLE {H W : Nat} (p q : Pixel H W) : Prop := idx p ≤ idx q

instance {H W : Nat} : DecidableRel (@pixLE H W) := fun _ _ => Nat.decLe _ _

instance {H W : Nat} : IsTrans (Pixel H W) pixLE :=
  ⟨fun _ _ _ h1 h2 => Nat.le_trans h1 h2⟩

instance {H W : Nat} : IsTotal (Pixel H W) pixLE :=
  ⟨fun p q => Nat.le_total (idx p) (idx q)⟩

instance {H W : Nat} : IsAntisymm (Pixel H W) pixLE := by
  refine ⟨fun p q h1 h2 => ?_⟩
  have hW : 0 < W := p.2.pos
  have he : idx p = idx q := Nat.le_antisymm h1 h2
  unfold idx at he
  have h2p := p.2.isLt
  have h2q := q.2.isLt
  have hr : p.1.val = q.1.val := by
    have hp : (W * p.1.val + p.2.val) / W = p.1.val := by
      rw [Nat.mul_add_div hW, Nat.div_eq_of_lt h2p, Nat.add_zero]
    have hq : (W * q.1.val + q.2.val) / W = q.1.val := by
      rw [Nat.mul_add_div hW, Nat.div_eq_of_lt h2q, Nat.add_zero]
    rw [Nat.mul_comm p.1.val W, Nat.mul_comm q.1.val W] at he
    rw [← hp, ← hq, he]
  have hc : p.2.val = q.2.val := by
    have := he
    rw [hr] at this
    omega
  exact Prod.ext (Fin.ext hr) (Fin.ext hc)

/-- The canonical representatives of the connected components: each foreground
pixel that is row-major-minimal in its own component.  These are in bijection
with the foreground labels `1 .. num_labels-1` of `cv2.connectedComponentsWithStats`. -/
def reps {H W : Nat} (m : Mask H W) : Finset (Pixel H W) :=
  Finset.univ.filter (fun p => fg m p = true ∧ ∀ q ∈ comp m p, idx p ≤ idx q)

/-- `num_labels`: one background label plus one label per foreground component. -/
def numLabels {H W : Nat} (m : Mask H W) : Nat := (reps m).card + 1

/-- `stats[·, cv2.CC_STAT_AREA]`: pixel area of the component of `p`. -/
def area {H W : Nat} (m : Mask H W) (p : Pixel H W) : Nat := (comp m p).card

/-- `1 + int(np.argmax(stats[1:, cv2.CC_STAT_AREA]))`: the representative of the
first (in label order, i.e. row-major order of representatives) foreground
component of maximal area.  `none` iff there is no foreground component. -/
def largestRep {H W : Nat} (m : Mask H W) : Option (Pixel H W) :=
  match (reps m).sort pixLE with
  | [] => none
  | r :: rs => some (rs.foldl (fun b r => if area m b < area m r then r else b) r)

/-- The fragment-removal filter applied to the soft mask: when more than one
foreground component exists (`num_labels > 2`), keep the soft value inside the
largest component's binary footprint (`bitwise_and` with 255) and zero the rest
(`bitwise_and` with 0); otherwise the mask is left unchanged. -/
def fragmentFilter {H W : Nat} (m : Mask H W) : Mask H W :=
  if 2 < numLabels m then
    match largestRep m with
    | some L => fun p => Nat.land (m p) (if p ∈ comp m L then 255 else 0)
    | none => m
  else m

/-! ## The Direct-Inference pipeline (`remove_background`, lines 57–91)

Images carry explicit dimensions and a pixel function (x, y, channel ↦ value);
channels 0–2 are R,G,B and channel 3 is alpha.  A `Resample` abstracts the
content produced by PIL `Image.resize` for one scalar channel: it receives the
source field, source dimensions, destination dimensions and the destination
coordinate.  The concrete convolution kernel (BILINEAR here) is irrelevant to
the claims; produced dimensions are explicit in `resizeCh`. -/

/-- A raster image: width, height, pixel function (x, y, channel). -/
structure Img where
  width : Nat
  height : Nat
  px : Nat → Nat → Nat → ℚ

/-- Abstract per-channel resampling kernel:
`rs field srcW srcH dstW dstH x y` is the resampled value at `(x, y)`. -/
def Resample : Type :=
  (Nat → Nat → ℚ) → Nat → Nat → Nat → Nat → Nat → Nat → ℚ

/-- Channel-wise `Image.resize((w, h), method)`. -/
def resizeCh (rs : Resample) (i : Img) (w h : Nat) : Img :=
  ⟨w, h, fun x y c => rs (fun a b => i.px a b c) i.width i.height w h x y⟩

/-- `INPUT_SIZE = 320`. -/
def INPUT_SIZE : Nat := 320

/-- The fixed per-channel normalization mean `[0.485, 0.456, 0.406]`. -/
def chMean : Fin 3 → ℚ := ![0.485, 0.456, 0.406]

/-- The fixed per-channel normalization std `[0.229, 0.224, 0.225]`. -/
def chStd : Fin 3 → ℚ := ![0.229, 0.224, 0.225]

/-- The single-channel `320 × 320` activation grid produced by the network
(`sess.run(...)[0][0, 0]`), indexed (row, column). -/
abbrev Grid := Fin 320 × Fin 320 → ℚ

/-- The preprocessed channel-first input tensor:
resize to `320 × 320` (bilinear), divide by 255, subtract the per-channel mean,
divide by the per-channel std, and transpose `(H, W, C) → (C, H, W)`. -/
def preprocess (rs : Resample) (img : Img) : Fin 3 → Fin 320 → Fin 320 → ℚ :=
  fun c y x =>
    ((resizeCh rs img INPUT_SIZE INPUT_SIZE).px x.val y.val c.val / 255 - chMean c) / chStd c

/-- `out.min()` over the activation grid. -/
def outMin (o : Grid) : ℚ :=
  Finset.univ.inf' Finset.univ_nonempty o

/-- `out.max()` over the activation grid. -/
def outMax (o : Grid) : ℚ :=
  Finset.univ.sup' Finset.univ_nonempty o

/-- Min-max normalization with the `1e-8` guard:
`out = (out - out.min()) / (out.max() - out.min() + 1e-8)`. -/
def normOut (o : Grid) : Grid :=
  fun p => (o p - outMin o) / (outMax o - outMin o + 1e-8)

/-- `mask = (out * 255).astype(np.uint8)`: scale to `[0, 255]` and cast to an
unsigned byte (the value is provably nonnegative, so C truncation agrees with
the floor; the cast reduces modulo 256). -/
def softMask (o : Grid) : Mask 320 320 :=
  fun p => (⌊normOut o p * 255⌋).toNat % 256

/-- View a `320 × 320` mask as a scalar field (x, y ↦ value) for resampling,
as `Image.fromarray(mask)` does. -/
def maskField (m : Mask 320 320) : Nat → Nat → ℚ :=
  fun x y =>
    if h : y < 320 ∧ x < 320 then (m (⟨y, h.1⟩, ⟨x, h.2⟩) : ℚ) else 0

/-- `remove_background(pil_img)` (`src/bg_remove.py` lines 57–91): preprocess,
run the network (`net`, abstracting the ONNX forward pass), min-max normalize,
scale to bytes, drop all but the largest connected component, resize the mask
back to the original resolution (bilinear) and install it as the alpha channel
of the RGBA-converted input. -/
def remove_background (rs : Resample) (net : (Fin 3 → Fin 320 → Fin 320 → ℚ) → Grid)
    (img : Img) : Img :=
  let out := net (preprocess rs img)
  let mask := fragmentFilter (softMask out)
  let maskResized := fun x y => rs (maskField mask) INPUT_SIZE INPUT_SIZE img.width img.height x y
  ⟨img.width, img.height, fun x y c => if c = 3 then maskResized x y else img.px x y c⟩

/-! ## The batch thread (`RemoveThread.run`, lines 106–144) -/

/-- `os.path.basename`: the part of the path after the last `/`. -/
def basename (p : String) : String :=
  (p.splitOn "/").getLastD p

/-- `os.path.splitext(...)[0]`: strip the extension (text from the last `.`);
a name with no dot is unchanged. -/
def stem (p : String) : String :=
  let parts := p.splitOn "."
  if parts.length ≤ 1 then p else String.intercalate "." parts.dropLast

/-- Output file name: source basename with the extension replaced by `.png`. -/
def outName (p : String) : String := stem (basename p) ++ ".png"

/-- The observable events emitted by `RemoveThread.run` through its signals. -/
inductive Event where
  | progress (pct : Nat) (fname : String)
  | preview (img : Img)
  | save (path : String) (img : Img)
  | error (msg : String)
  | done (outDir : String) (count : Nat)

/-- The per-image loop of `RemoveThread.run` (lines 125–144): for each path emit
progress, decode and process it (`load` models `Image.open(...).convert('RGBA')`
followed by inference — any decode or inference exception is an `Except.error`),
surface the first success additionally as a preview, save the result; on the
first failure emit the error once and return, aborting the rest of the batch.
After a full pass emit the `100 %` progress and the completion summary. -/
def runLoop (rs : Resample) (net : (Fin 3 → Fin 320 → Fin 320 → ℚ) → Grid)
    (load : String → Except String Img) (outDir : String) (total : Nat) :
    Nat → Bool → List String → List Event
  | _, _, [] => [Event.progress 100 "완료", Event.done outDir total]
  | i, first, srcPath :: rest =>
    let fname := outName srcPath
    Event.progress (i * 100 / total) fname ::
      match load srcPath with
      | Except.error e => [Event.error ("처리 오류 (" ++ fname ++ "):\n" ++ e)]
      | Except.ok img =>
        let result := remove_background rs net img
        (if first then [Event.preview result] else []) ++
          Event.save (outDir ++ "/" ++ fname) result ::
            runLoop rs net load outDir total (i + 1) false rest

/-- `RemoveThread.run` (lines 106–144): a missing model file or a failed
onnxruntime import is a fatal error emitted before any image is touched;
otherwise run the batch loop. -/
def RemoveThread.run (rs : Resample) (net : (Fin 3 → Fin 320 → Fin 320 → ℚ) → Grid)
    (modelExists ortOk : Bool) (load : String → Except String Img)
    (paths : List String) (outDir : String) : List Event :=
  if modelExists = false then
    [Event.error "모델 파일이 없습니다."]
  else if ortOk = false then
    [Event.error "onnxruntime 로드 오류"]
  else
    runLoop rs net load outDir paths.length 0 true paths

/-- Event classifier: error signal. -/
def Event.isError : Event → Bool
  | Event.error _ => true
  | _ => false

/-- Event classifier: file save. -/
def Event.isSave : Event → Bool
  | Event.save _ _ => true
  | _ => false

/-- Event classifier: completion summary. -/
def Event.isDone : Event → Bool
  | Event.done _ _ => true
  | _ => false

/-- Event classifier: progress signal. -/
def Event.isProgress : Event → Bool
  | Event.progress _ _ => true
  | _ => false

/-- The trace produced by a run of successfully processed images (the part of
the batch before the first failure): progress, optional first preview, save —
per image. -/
def okTrace (rs : Resample) (net : (Fin 3 → Fin 320 → Fin 320 → ℚ) → Grid)
    (load : String → Except String Img) (outDir : String) (total : Nat) :
    Nat → Bool → List String → List Event
  | _, _, [] => []
  | i, first, srcPath :: rest =>
    let fname := outName srcPath
    Event.progress (i * 100 / total) fname ::
      match load srcPath with
      | Except.error _ => []
      | Except.ok img =>
        let result := remove_background rs net img
        (if first then [Event.preview result] else []) ++
          Event.save (outDir ++ "/" ++ fname) result ::
            okTrace rs net load outDir total (i + 1) false rest

/-- Mask for the C1 witness: a `1 × 4` strip `[200, 180, 0, 150]` holding a
foreground component of area 2 and a disjoint one of area 1. -/
def c1mask : Mask 1 4 := fun p => [200, 180, 0, 150].getD p.2.val 0

/-- Representative of the 2-pixel component of `c1mask`. -/
def c1L : Pixel 1 4 := (0, 0)

/-- Trivial resampling kernel used by witnesses. -/
def c8rs : Resample := fun _ _ _ _ _ _ _ => 0

/-- One-pixel black witness image. -/
def c8img : Img := ⟨1, 1, fun _ _ _ => 0⟩

/-- A network with a constant activation map (value 3 everywhere). -/
def c8net : (Fin 3 → Fin 320 → Fin 320 → ℚ) → Grid := fun _ _ => 3

/-- Witness loader: decoding `"bad"` raises, everything else succeeds. -/
def c3load : String → Except String Img :=
  fun s => if s = "bad" then Except.error "boom" else Except.ok c8img

end BgRemove

namespace Composer

/-! ## Composer constants (`src/합성기.py` lines 29–36) -/

def CANVAS_W : Nat := 1800
def CANVAS_H : Nat := 1200

/-- `REP_MAX = 700`: cap on the larger dimension of the representative image. -/
def REP_MAX : Nat := 700

/-- `LEFT_ZONE_END = 0.33`. -/
def LEFT_ZONE_END : ℚ := 0.33

/-- `RIGHT_ZONE_START = 0.67`. -/
def RIGHT_ZONE_START : ℚ := 0.67

/-- `int(CANVAS_W * LEFT_ZONE_END)` (`= 594`, for IEEE doubles as well). -/
def leftZonePx : Int := ⌊(CANVAS_W : ℚ) * LEFT_ZONE_END⌋

/-- `int(CANVAS_W * RIGHT_ZONE_START)` (`= 1206`, for IEEE doubles as well). -/
def rightZonePx : Int := ⌊(CANVAS_W : ℚ) * RIGHT_ZONE_START⌋

/-! ## Randomness and the file-system environment

`random.choice` / `random.randint` are modelled against a stream of arbitrary
naturals: drawing consumes the head of the stream.  `randint a b` returns a
value in `[a, b]` (both ends included, as in Python) whenever `a ≤ b`.
An `Env` gives the pixel dimensions of the image stored at a path, or `none`
when opening/decoding the file fails. -/

def RNG : Type := Nat → Nat

/-- Drop the consumed head of the stream. -/
def RNG.shift (g : RNG) : RNG := fun n => g (n + 1)

/-- `random.randint(a, b)`: an arbitrary draw from `[a, b]` (inclusive). -/
def randint (a b : Int) (g : RNG) : Int × RNG :=
  (a + (g 0 : Int) % (b + 1 - a), g.shift)

/-- `random.choice(lst)`: an arbitrary element of `lst` (`none` on an empty
list, where Python would raise; all call sites guard for non-emptiness). -/
def choice (l : List String) (g : RNG) : Option String × RNG :=
  (l.get? (g 0 % l.length), g.shift)

/-- Dimensions of the image stored at each path (`none`: unreadable file). -/
def Env : Type := String → Option (Nat × Nat)

/-! ## `ComposerState` (lines 40–110) -/

/-- The mutable session state: image pools, committed random selection and
placement, slider values and the `locked` flag. -/
structure ComposerState where
  backgrounds : List String
  left_elements : List String
  right_elements : List String
  rep_images : List String
  current_bg : Option String
  current_left : Option String
  current_right : Option String
  left_pos : Int × Int
  right_pos : Int × Int
  left_scale : ℚ
  right_scale : ℚ
  saturation : ℚ
  brightness : ℚ
  locked : Bool

/-- The state produced by `reset()` (lines 46–66). -/
def emptyState : ComposerState :=
  ⟨[], [], [], [], none, none, none, (0, 0), (0, 0), 0.5, 0.5, 1, 1, false⟩

/-- `reset()` discards the whole state. -/
def ComposerState.reset (_ : ComposerState) : ComposerState := emptyState

/-- `_img_size(path, scale)` (lines 105–110): the natural dimensions scaled and
truncated to ints, or the fallback `(200, 200)` when the image cannot be read.
(The scale is nonnegative at every call site, so `int(...)` truncation is the
floor.) -/
def imgSize (env : Env) (path : String) (scale : ℚ) : Nat × Nat :=
  match env path with
  | some (w, h) => ((⌊(w : ℚ) * scale⌋).toNat, (⌊(h : ℚ) * scale⌋).toNat)
  | none => (200, 200)

/-- The left-zone placement step of `_place_elements` (lines 84–91): when a left
decoration is selected, draw `x ∈ [0, max(0, int(W*0.33) - lw)]` and
`y ∈ [0, max(0, H - lh)]`. -/
def placeLeft (env : Env) (st : ComposerState) (g : RNG) : ComposerState × RNG :=
  match st.current_left with
  | none => (st, g)
  | some pl =>
    let s := imgSize env pl st.left_scale
    let maxX : Int := max 0 (leftZonePx - (s.1 : Int))
    let maxY : Int := max 0 ((CANVAS_H : Int) - (s.2 : Int))
    let rx := randint 0 maxX g
    let ry := randint 0 maxY rx.2
    ({ st with left_pos := (rx.1, ry.1) }, ry.2)

/-- The right-zone placement step of `_place_elements` (lines 94–102): when a
right decoration is selected, draw `x ∈ [int(W*0.67), max(int(W*0.67), W - rw)]`
and `y ∈ [0, max(0, H - rh)]`. -/
def placeRight (env : Env) (st : ComposerState) (g : RNG) : ComposerState × RNG :=
  match st.current_right with
  | none => (st, g)
  | some pr =>
    let s := imgSize env pr st.right_scale
    let minX : Int := rightZonePx
    let maxX : Int := max minX ((CANVAS_W : Int) - (s.1 : Int))
    let maxY : Int := max 0 ((CANVAS_H : Int) - (s.2 : Int))
    let rx := randint minX maxX g
    let ry := randint 0 maxY rx.2
    ({ st with right_pos := (rx.1, ry.1) }, ry.2)

/-- `_place_elements()` (lines 81–102): left zone then right zone. -/
def ComposerState.place_elements (env : Env) (st : ComposerState) (g : RNG) :
    ComposerState × RNG :=
  let l := placeLeft env st g
  placeRight env l.1 l.2

/-- `if self.backgrounds: self.current_bg = random.choice(self.backgrounds)`. -/
def selectBg (st : ComposerState) (g : RNG) : ComposerState × RNG :=
  if st.backgrounds ≠ [] then
    ({ st with current_bg := (choice st.backgrounds g).1 }, (choice st.backgrounds g).2)
  else (st, g)

/-- `if self.left_elements: self.current_left = random.choice(self.left_elements)`. -/
def selectLeft (st : ComposerState) (g : RNG) : ComposerState × RNG :=
  if st.left_elements ≠ [] then
    ({ st with current_left := (choice st.left_elements g).1 }, (choice st.left_elements g).2)
  else (st, g)

/-- `if self.right_elements: self.current_right = random.choice(self.right_elements)`. -/
def selectRight (st : ComposerState) (g : RNG) : ComposerState × RNG :=
  if st.right_elements ≠ [] then
    ({ st with current_right := (choice st.right_elements g).1 }, (choice st.right_elements g).2)
  else (st, g)

/-- The selection phase of `randomize()` (lines 71–76): for each non-empty pool
pick one element uniformly (independent draws; pools are not consumed). -/
def selectPhase (st : ComposerState) (g : RNG) : ComposerState × RNG :=
  let s1 := selectBg st g
  let s2 := selectLeft s1.1 s1.2
  selectRight s2.1 s2.2

/-- `randomize()` (lines 69–79): select, place, then set `locked = True`. -/
def ComposerState.randomize (env : Env) (st : ComposerState) (g : RNG) :
    ComposerState × RNG :=
  let s := selectPhase st g
  let p := ComposerState.place_elements env s.1 s.2
  ({ p.1 with locked := true }, p.2)

/-! ## The validated entry point `MainWindow._randomize` (lines 494–507)

`_sync_state` first copies the UI pools and slider values into the state
(without touching selections, positions or `locked`), then the pool validation
runs and, only if it passes, `state.randomize()` is called. -/

/-- The UI inputs read by `_sync_state` (lines 479–488). -/
structure UIInputs where
  bgPool : List String
  leftPool : List String
  rightPool : List String
  repPool : List String
  leftSlider : Int
  rightSlider : Int
  satSlider : Int
  briSlider : Int

/-- `_sync_state()` (lines 479–488). -/
def syncState (ui : UIInputs) (st : ComposerState) : ComposerState :=
  { st with
    backgrounds := ui.bgPool
    left_elements := ui.leftPool
    right_elements := ui.rightPool
    rep_images := ui.repPool
    left_scale := (ui.leftSlider : ℚ) / 100
    right_scale := (ui.rightSlider : ℚ) / 100
    saturation := 1 + (ui.satSlider : ℚ) / 100
    brightness := 1 + (ui.briSlider : ℚ) / 100 }

/-- Outcome of `_randomize`: a validation warning box, or success. -/
inductive RandomizeResult where
  | warnNoBackground
  | warnNoRepresentative
  | ok
deriving DecidableEq

/-- `MainWindow._randomize` (lines 494–507): sync, validate the background and
representative pools, and only then mutate the composition via `randomize()`. -/
def mainRandomize (env : Env) (ui : UIInputs) (st : ComposerState) (g : RNG) :
    RandomizeResult × ComposerState × RNG :=
  let st1 := syncState ui st
  if st1.backgrounds = [] then (RandomizeResult.warnNoBackground, st1, g)
  else if st1.rep_images = [] then (RandomizeResult.warnNoRepresentative, st1, g)
  else
    let r := ComposerState.randomize env st1 g
    (RandomizeResult.ok, r.1, r.2)

/-! ## The compositor `compose` (lines 113–168)

The output is modelled as the canvas geometry plus the ordered list of alpha
`paste` operations performed onto it (later entries occlude earlier ones) and
the final saturation/brightness enhancement factors.  Each layer's
`Image.open` failure (environment returns `none`) is caught inside that layer
alone, reproducing the per-layer `try/except` blocks. -/

inductive Layer where
  | bg
  | left
  | right
  | rep
deriving DecidableEq

/-- One `canvas.paste(img, pos, img)` call: which layer, the source path, the
top-left position and the resized dimensions. -/
structure Paste where
  layer : Layer
  path : String
  pos : Int × Int
  size : Nat × Nat

/-- The composed canvas: fixed geometry, gray base fill, the paste list, and
the `ImageEnhance.Color` / `ImageEnhance.Brightness` factors applied to the
flattened RGB result. -/
structure Rendered where
  width : Nat
  height : Nat
  base : Nat × Nat × Nat
  pastes : List Paste
  saturation : ℚ
  brightness : ℚ

/-- `PIL.Image.thumbnail`'s rounding of the aspect-corrected dimension:
`max(min(floor(q), ceil(q), key=key), 1)` (Python's `min` keeps the first
argument on a key tie). -/
def roundAspect (q : ℚ) (key : Int → ℚ) : Int :=
  max (if key ⌊q⌋ ≤ key ⌈q⌉ then ⌊q⌋ else ⌈q⌉) 1

/-- `rep.thumbnail((REP_MAX, REP_MAX), Image.LANCZOS)` size computation
(PIL `Image.thumbnail`): images already within the `700 × 700` box are left
unchanged; otherwise the image shrinks, aspect-preserved up to rounding, so
that the constrained dimension becomes exactly 700. -/
def thumbFit (w h : Nat) : Nat × Nat :=
  if REP_MAX ≥ w ∧ REP_MAX ≥ h then (w, h)
  else if (REP_MAX : ℚ) / (REP_MAX : ℚ) ≥ (w : ℚ) / (h : ℚ) then
    ((roundAspect ((REP_MAX : ℚ) * ((w : ℚ) / (h : ℚ)))
        (fun n => |(w : ℚ) / (h : ℚ) - (n : ℚ) / (REP_MAX : ℚ)|)).toNat, REP_MAX)
  else
    (REP_MAX,
      (roundAspect ((REP_MAX : ℚ) / ((w : ℚ) / (h : ℚ)))
        (fun n => if n = 0 then 0
          else |(w : ℚ) / (h : ℚ) - (REP_MAX : ℚ) / (n : ℚ)|)).toNat)

/-- Thumbnail size and centered position of the representative image:
`x = (CANVAS_W - w) // 2`, `y = (CANVAS_H - h) // 2` (Python floor division). -/
def repPlacement (w h : Nat) : (Nat × Nat) × (Int × Int) :=
  let s := thumbFit w h
  (s, (Int.fdiv ((CANVAS_W : Int) - (s.1 : Int)) 2,
       Int.fdiv ((CANVAS_H : Int) - (s.2 : Int)) 2))

/-- Layer 1 (lines 121–127): background, resized to the full canvas, pasted at
the origin; a load failure is caught and the layer skipped. -/
def bgLayer (env : Env) (st : ComposerState) : List Paste :=
  match st.current_bg with
  | none => []
  | some p =>
    match env p with
    | none => []
    | some _ => [⟨Layer.bg, p, (0, 0), (CANVAS_W, CANVAS_H)⟩]

/-- Layer 2 (lines 130–139): the left decoration, resized by `left_scale`, its
stored position clamped into the canvas; a load failure is caught and the
layer skipped. -/
def leftLayer (env : Env) (st : ComposerState) : List Paste :=
  match st.current_left with
  | none => []
  | some p =>
    let s := imgSize env p st.left_scale
    match env p with
    | none => []
    | some _ =>
      let lx := max 0 (min st.left_pos.1 ((CANVAS_W : Int) - (s.1 : Int)))
      let ly := max 0 (min st.left_pos.2 ((CANVAS_H : Int) - (s.2 : Int)))
      [⟨Layer.left, p, (lx, ly), s⟩]

/-- Layer 3 (lines 142–151): the right decoration, symmetric to the left. -/
def rightLayer (env : Env) (st : ComposerState) : List Paste :=
  match st.current_right with
  | none => []
  | some p =>
    let s := imgSize env p st.right_scale
    match env p with
    | none => []
    | some _ =>
      let rx := max 0 (min st.right_pos.1 ((CANVAS_W : Int) - (s.1 : Int)))
      let ry := max 0 (min st.right_pos.2 ((CANVAS_H : Int) - (s.2 : Int)))
      [⟨Layer.right, p, (rx, ry), s⟩]

/-- Layer 4 (lines 154–162): the representative image, thumbnail-capped to
`700 × 700`, centered, pasted last; an empty path is skipped (Python
truthiness) and a load failure is caught and the layer skipped. -/
def repLayer (env : Env) (rep_path : String) : List Paste :=
  if rep_path = "" then []
  else
    match env rep_path with
    | none => []
    | some (w, h) =>
      let pl := repPlacement w h
      [⟨Layer.rep, rep_path, pl.2, pl.1⟩]

/-- `compose(rep_path)` (lines 113–168): allocate the gray `1800 × 1200`
canvas, paste background, left decoration, right decoration and representative
image in that order (each guarded by its own `try`), flatten to RGB and apply
the saturation then brightness enhancement. -/
def ComposerState.compose (env : Env) (st : ComposerState) (rep_path : String) :
    Rendered :=
  ⟨CANVAS_W, CANVAS_H, (220, 220, 220),
    bgLayer env st ++ leftLayer env st ++ rightLayer env st ++ repLayer env rep_path,
    st.saturation, st.brightness⟩

/-! ### A small operational model of the session

`randomize` consumes randomness and mutates the state; `compose` reads the
state, consumes no randomness and mutates nothing.  This is the level at which
"no hidden randomness inside `compose`" is expressed. -/

/-- The full mutable session: composer state plus the `random` module's stream. -/
structure Sys where
  st : ComposerState
  g : RNG

/-- The operations the shell can invoke on the session. -/
inductive Act where
  | randomize
  | compose (rep_path : String)
  | reset

/-- One step of the session: the successor system and the produced canvas
(for `compose`). -/
def stepSys (env : Env) (s : Sys) : Act → Sys × Option Rendered
  | Act.randomize =>
    let r := ComposerState.randomize env s.st s.g
    (⟨r.1, r.2⟩, none)
  | Act.compose rep_path => (s, some (ComposerState.compose env s.st rep_path))
  | Act.reset => (⟨s.st.reset, s.g⟩, none)

/-! ### Concrete instances used by witnesses -/

/-- Witness environment: two readable 100×100 decoration files. -/
def c6env : Env := fun p =>
  if p = "L" then some (100, 100) else if p = "R" then some (100, 100) else none

/-- Witness state: one file in each pool, fresh otherwise. -/
def c6st : ComposerState :=
  { emptyState with backgrounds := ["B"], left_elements := ["L"], right_elements := ["R"] }

/-- Witness stream: all draws are 0. -/
def c6g : RNG := fun _ => 0

/-- Witness UI inputs with empty pools. -/
def c2ui : UIInputs := ⟨[], [], [], [], 50, 50, 0, 0⟩

/-- Witness environment: every path holds a 500×500 image. -/
def c4env : Env := fun _ => some (500, 500)

end Composer

/-! # Lemmas -/

namespace BgRemove

section ComponentLemmas

variable {H W : Nat} (m : Mask H W)

lemma subset_step (S : Finset (Pixel H W)) : S ⊆ step m S :=
  Finset.subset_union_left

lemma mem_compIter_self (n : Nat) (p : Pixel H W) : p ∈ compIter m n p := by
  induction n with
  | zero => simp [compIter]
  | succ n ih => exact subset_step m _ ih

lemma conn_of_mem_compIter {n : Nat} {p q : Pixel H W}
    (h : q ∈ compIter m n p) : conn m p q := by
  induction n generalizing q with
  | zero =>
    simp only [compIter, Finset.mem_singleton] at h
    exact h ▸ Relation.ReflTransGen.refl
  | succ n ih =>
    simp only [compIter, step, Finset.mem_union, Finset.mem_filter] at h
    rcases h with h | ⟨-, hfg, r, hr, hadj⟩
    · exact ih h
    · exact Relation.ReflTransGen.tail (ih hr) ⟨hadj, hfg⟩

lemma compIter_stable_add {k : Nat} {p : Pixel H W}
    (h : step m (compIter m k p) = compIter m k p) :
    ∀ j, compIter m (k + j) p = compIter m k p := by
  intro j
  induction j with
  | zero => rfl
  | succ j ih =>
    show step m (compIter m (k + j) p) = compIter m k p
    rw [ih, h]

lemma card_compIter_lt {n : Nat} {p : Pixel H W}
    (h : ∀ k < n, step m (compIter m k p) ≠ compIter m k p) :
    n < (compIter m n p).card := by
  induction n with
  | zero => simp [compIter]
  | succ n ih =>
    have h1 : n < (compIter m n p).card :=
      ih (fun k hk => h k (Nat.lt_trans hk (Nat.lt_succ_self n)))
    have h2 : compIter m n p ⊂ step m (compIter m n p) :=
      Finset.ssubset_iff_subset_ne.mpr ⟨subset_step m _, (h n (Nat.lt_succ_self n)).symm⟩
    have h3 := Finset.card_lt_card h2
    show n + 1 < (step m (compIter m n p)).card
    omega

lemma step_comp_eq (p : Pixel H W) : step m (comp m p) = comp m p := by
  by_contra hne
  have hall : ∀ k, k ≤ H * W → step m (compIter m k p) ≠ compIter m k p := by
    intro k hk hstable
    have hstab := compIter_stable_add m hstable (H * W - k)
    rw [Nat.add_sub_cancel' hk] at hstab
    exact hne (by rw [comp, hstab, hstable])
  have hcard := card_compIter_lt m (n := H * W) (p := p)
    (fun k hk => hall k (Nat.le_of_lt hk))
  have hle : (compIter m (H * W) p).card ≤ H * W := by
    have h := Finset.card_le_univ (compIter m (H * W) p)
    rwa [Fintype.card_prod, Fintype.card_fin, Fintype.card_fin] at h
  omega

lemma mem_of_closed {S : Finset (Pixel H W)} {a b : Pixel H W}
    (hS : step m S = S) (ha : a ∈ S) (h : conn m a b) : b ∈ S := by
  induction h with
  | refl => exact ha
  | @tail c b _ hcb ih =>
    rw [← hS]
    exact Finset.mem_union_right _
      (Finset.mem_filter.mpr ⟨Finset.mem_univ _, hcb.2, c, ih, hcb.1⟩)

/-- The saturated set `comp m p` is exactly the set of pixels 8-connected to
`p` through the thresholded foreground. -/
lemma mem_comp_iff {p q : Pixel H W} : q ∈ comp m p ↔ conn m p q :=
  ⟨conn_of_mem_compIter m,
    fun h => mem_of_closed m (step_comp_eq m p) (mem_compIter_self m _ p) h⟩

end ComponentLemmas

section ArgmaxLemmas

variable {α : Type} (f : α → Nat)

lemma argmaxFold_mem (b : α) (l : List α) :
    l.foldl (fun x r => if f x < f r then r else x) b ∈ b :: l := by
  induction l generalizing b with
  | nil => simp
  | cons a t ih =>
    simp only [List.foldl_cons]
    rcases List.mem_cons.mp (ih (if f b < f a then a else b)) with h | h
    · rw [h]
      split
      · exact List.mem_cons_of_mem _ (List.mem_cons_self a t)
      · exact List.mem_cons_self b _
    · exact List.mem_cons_of_mem _ (List.mem_cons_of_mem _ h)

lemma argmaxFold_le (b : α) (l : List α) :
    ∀ x ∈ b :: l, f x ≤ f (l.foldl (fun x r => if f x < f r then r else x) b) := by
  induction l generalizing b with
  | nil =>
    intro x hx
    rw [List.mem_singleton] at hx
    exact hx ▸ Nat.le_refl _
  | cons a t ih =>
    intro x hx
    simp only [List.foldl_cons]
    have hb : f b ≤ f (if f b < f a then a else b) := by
      split
      · next hlt => exact Nat.le_of_lt hlt
      · exact Nat.le_refl _
    have ha : f a ≤ f (if f b < f a then a else b) := by
      split
      · exact Nat.le_refl _
      · next hlt => exact Nat.le_of_not_lt hlt
    rcases List.mem_cons.mp hx with h | h
    · subst h
      exact Nat.le_trans hb (ih _ _ (List.mem_cons_self _ _))
    rcases List.mem_cons.mp h with h' | h'
    · subst h'
      exact Nat.le_trans ha (ih _ _ (List.mem_cons_self _ _))
    · exact ih _ x (List.mem_cons_of_mem _ h')

end ArgmaxLemmas

lemma largestRep_eq {H W : Nat} (m : Mask H W) (L : Pixel H W) (hL : L ∈ reps m)
    (hmax : ∀ r ∈ reps m, r ≠ L → area m r < area m L) :
    largestRep m = some L := by
  have hmem : L ∈ (reps m).sort pixLE := (Finset.mem_sort _).mpr hL
  unfold largestRep
  cases hsort : (reps m).sort pixLE with
  | nil => rw [hsort] at hmem; cases hmem
  | cons r rs =>
    rw [hsort] at hmem
    simp only []
    have hRmem : rs.foldl (fun x q => if area m x < area m q then q else x) r ∈ r :: rs :=
      argmaxFold_mem (area m) r rs
    have hRreps : rs.foldl (fun x q => if area m x < area m q then q else x) r ∈ reps m :=
      (Finset.mem_sort pixLE).mp (hsort ▸ hRmem)
    have hge : area m L ≤ area m (rs.foldl (fun x q => if area m x < area m q then q else x) r) :=
      argmaxFold_le (area m) r rs L hmem
    have heq : rs.foldl (fun x q => if area m x < area m q then q else x) r = L := by
      by_contra hne
      have := hmax _ hRreps hne
      omega
    rw [heq]

lemma land_zero (n : Nat) : Nat.land n 0 = 0 := by
  unfold Nat.land
  simp [Nat.bitwise]

lemma land_255 : ∀ n < 256, Nat.land n 255 = n := by decide

lemma runLoop_cons_ok (rs : Resample) (net : (Fin 3 → Fin 320 → Fin 320 → ℚ) → Grid)
    (load : String → Except String Img) (outDir : String) (total i : Nat) (first : Bool)
    (p : String) (rest : List String) (im : Img) (him : load p = Except.ok im) :
    runLoop rs net load outDir total i first (p :: rest) =
      Event.progress (i * 100 / total) (outName p) ::
        ((if first then [Event.preview (remove_background rs net im)] else []) ++
          Event.save (outDir ++ "/" ++ outName p) (remove_background rs net im) ::
            runLoop rs net load outDir total (i + 1) false rest) := by
  rw [runLoop, him]

lemma runLoop_cons_err (rs : Resample) (net : (Fin 3 → Fin 320 → Fin 320 → ℚ) → Grid)
    (load : String → Except String Img) (outDir : String) (total i : Nat) (first : Bool)
    (p : String) (rest : List String) (e : String) (he : load p = Except.error e) :
    runLoop rs net load outDir total i first (p :: rest) =
      [Event.progress (i * 100 / total) (outName p),
       Event.error ("처리 오류 (" ++ outName p ++ "):\n" ++ e)] := by
  rw [runLoop, he]

lemma okTrace_cons_ok (rs : Resample) (net : (Fin 3 → Fin 320 → Fin 320 → ℚ) → Grid)
    (load : String → Except String Img) (outDir : String) (total i : Nat) (first : Bool)
    (p : String) (rest : List String) (im : Img) (him : load p = Except.ok im) :
    okTrace rs net load outDir total i first (p :: rest) =
      Event.progress (i * 100 / total) (outName p) ::
        ((if first then [Event.preview (remove_background rs net im)] else []) ++
          Event.save (outDir ++ "/" ++ outName p) (remove_background rs net im) ::
            okTrace rs net load outDir total (i + 1) false rest) := by
  rw [okTrace, him]

/-- On a batch whose prefix `pre` loads fine and whose next path fails, the
loop trace is the successful prefix trace followed by one progress signal and
one error signal — nothing else: the loop returns right after the error. -/
lemma runLoop_fail (rs : Resample) (net : (Fin 3 → Fin 320 → Fin 320 → ℚ) → Grid)
    (load : String → Except String Img) (outDir : String) (total : Nat)
    (failP e : String) (post : List String) (hfail : load failP = Except.error e) :
    ∀ (pre : List String) (i : Nat) (first : Bool),
    (∀ q ∈ pre, ∃ im, load q = Except.ok im) →
    runLoop rs net load outDir total i first (pre ++ failP :: post) =
      okTrace rs net load outDir total i first pre ++
        [Event.progress ((i + pre.length) * 100 / total) (outName failP),
         Event.error ("처리 오류 (" ++ outName failP ++ "):\n" ++ e)] := by
  intro pre
  induction pre with
  | nil =>
    intro i first _
    show runLoop rs net load outDir total i first (failP :: post) = _
    rw [runLoop_cons_err rs net load outDir total i first failP post e hfail]
    simp [okTrace]
  | cons q pre ih =>
    intro i first hok
    obtain ⟨im, him⟩ := hok q (List.mem_cons_self q pre)
    have ihx := ih (i + 1) false (fun r hr => hok r (List.mem_cons_of_mem _ hr))
    rw [List.cons_append,
      runLoop_cons_ok rs net load outDir total i first q (pre ++ failP :: post) im him,
      okTrace_cons_ok rs net load outDir total i first q pre im him, ihx]
    have harith : i + 1 + pre.length = i + (pre.length + 1) := by omega
    simp [List.append_assoc, harith]

/-- The successful prefix trace contains no error, no summary, one save per
image and one progress signal per image. -/
lemma okTrace_counts (rs : Resample) (net : (Fin 3 → Fin 320 → Fin 320 → ℚ) → Grid)
    (load : String → Except String Img) (outDir : String) (total : Nat) :
    ∀ (pre : List String) (i : Nat) (first : Bool),
    (∀ q ∈ pre, ∃ im, load q = Except.ok im) →
    (okTrace rs net load outDir total i first pre).countP Event.isError = 0 ∧
    (okTrace rs net load outDir total i first pre).countP Event.isDone = 0 ∧
    (okTrace rs net load outDir total i first pre).countP Event.isSave = pre.length ∧
    (okTrace rs net load outDir total i first pre).countP Event.isProgress = pre.length := by
  intro pre
  induction pre with
  | nil =>
    intro i first _
    simp [okTrace]
  | cons q pre ih =>
    intro i first hok
    obtain ⟨im, him⟩ := hok q (List.mem_cons_self q pre)
    have ihx := ih (i + 1) false (fun r hr => hok r (List.mem_cons_of_mem _ hr))
    rw [okTrace_cons_ok rs net load outDir total i first q pre im him]
    cases first <;>
      simp [List.countP_cons, List.countP_append, ihx.1, ihx.2.1, ihx.2.2.1, ihx.2.2.2,
        Event.isError, Event.isDone, Event.isSave, Event.isProgress]

lemma outMin_le (o : Grid) (p : Fin 320 × Fin 320) : outMin o ≤ o p :=
  Finset.inf'_le _ (Finset.mem_univ p)

lemma le_outMax (o : Grid) (p : Fin 320 × Fin 320) : o p ≤ outMax o :=
  Finset.le_sup' _ (Finset.mem_univ p)

/-- The `1e-8` guard keeps the min-max denominator strictly positive. -/
lemma denom_pos (o : Grid) : 0 < outMax o - outMin o + 1e-8 := by
  have h1 : outMin o ≤ outMax o :=
    le_trans (outMin_le o ((0 : Fin 320), (0 : Fin 320)))
      (le_outMax o ((0 : Fin 320), (0 : Fin 320)))
  have h2 : (0 : ℚ) < 1e-8 := by norm_num
  linarith

lemma normOut_nonneg (o : Grid) (p : Fin 320 × Fin 320) : 0 ≤ normOut o p :=
  div_nonneg (sub_nonneg.mpr (outMin_le o p)) (le_of_lt (denom_pos o))

lemma normOut_lt_one (o : Grid) (p : Fin 320 × Fin 320) : normOut o p < 1 := by
  apply (div_lt_one (denom_pos o)).mpr
  have h1 : o p ≤ outMax o := le_outMax o p
  have h2 : (0 : ℚ) < 1e-8 := by norm_num
  linarith

/-- The byte cast in `(out * 255).astype(np.uint8)` never wraps: the scaled
value lies in `[0, 254]`, so the modulo-256 reduction is the identity. -/
lemma softMask_byte (o : Grid) (p : Fin 320 × Fin 320) :
    softMask o p = (⌊normOut o p * 255⌋).toNat ∧ softMask o p ≤ 254 := by
  have h0 : (0 : ℚ) ≤ normOut o p * 255 :=
    mul_nonneg (normOut_nonneg o p) (by norm_num)
  have h1 : normOut o p * 255 < 255 := by
    have := normOut_lt_one o p
    nlinarith
  have hf0 : 0 ≤ ⌊normOut o p * 255⌋ := Int.floor_nonneg.mpr h0
  have hf1 : ⌊normOut o p * 255⌋ < 255 := by
    apply Int.floor_lt.mpr
    push_cast
    exact h1
  have hlt : (⌊normOut o p * 255⌋).toNat < 256 := by omega
  have heq : softMask o p = (⌊normOut o p * 255⌋).toNat := by
    show (⌊normOut o p * 255⌋).toNat % 256 = _
    exact Nat.mod_eq_of_lt hlt
  exact ⟨heq, by omega⟩

end BgRemove

namespace Composer

lemma leftZonePx_eq : leftZonePx = 594 := by
  norm_num [leftZonePx, LEFT_ZONE_END, CANVAS_W]

lemma rightZonePx_eq : rightZonePx = 1206 := by
  norm_num [rightZonePx, RIGHT_ZONE_START, CANVAS_W]

/-- `randint a b` really lands in `[a, b]` whenever `a ≤ b`. -/
lemma randint_bounds (a b : Int) (g : RNG) (hab : a ≤ b) :
    a ≤ (randint a b g).1 ∧ (randint a b g).1 ≤ b := by
  unfold randint
  have hd : (0 : Int) < b + 1 - a := by omega
  have h0 : (0 : Int) ≤ (g 0 : Int) % (b + 1 - a) :=
    Int.emod_nonneg _ (by omega)
  have h1 : (g 0 : Int) % (b + 1 - a) < b + 1 - a :=
    Int.emod_lt_of_pos _ hd
  constructor <;> simp only [] <;> omega

lemma selectBg_fields (st : ComposerState) (g : RNG) :
    (selectBg st g).1.left_elements = st.left_elements ∧
    (selectBg st g).1.right_elements = st.right_elements ∧
    (selectBg st g).1.current_left = st.current_left ∧
    (selectBg st g).1.current_right = st.current_right ∧
    (selectBg st g).1.left_scale = st.left_scale ∧
    (selectBg st g).1.right_scale = st.right_scale := by
  unfold selectBg
  split <;> exact ⟨rfl, rfl, rfl, rfl, rfl, rfl⟩

lemma selectLeft_fields (st : ComposerState) (g : RNG) :
    (selectLeft st g).1.right_elements = st.right_elements ∧
    (selectLeft st g).1.current_right = st.current_right ∧
    (selectLeft st g).1.left_scale = st.left_scale ∧
    (selectLeft st g).1.right_scale = st.right_scale := by
  unfold selectLeft
  split <;> exact ⟨rfl, rfl, rfl, rfl⟩

lemma selectRight_fields (st : ComposerState) (g : RNG) :
    (selectRight st g).1.current_left = st.current_left ∧
    (selectRight st g).1.left_scale = st.left_scale ∧
    (selectRight st g).1.right_scale = st.right_scale := by
  unfold selectRight
  split <;> exact ⟨rfl, rfl, rfl⟩

/-- The selection phase never touches scales. -/
lemma selectPhase_scales (st : ComposerState) (g : RNG) :
    (selectPhase st g).1.left_scale = st.left_scale ∧
    (selectPhase st g).1.right_scale = st.right_scale := by
  unfold selectPhase
  constructor
  · rw [(selectRight_fields _ _).2.1, (selectLeft_fields _ _).2.2.1,
      (selectBg_fields _ _).2.2.2.2.1]
  · rw [(selectRight_fields _ _).2.2, (selectLeft_fields _ _).2.2.2,
      (selectBg_fields _ _).2.2.2.2.2]

lemma placeLeft_fields (env : Env) (st : ComposerState) (g : RNG) :
    (placeLeft env st g).1.current_left = st.current_left ∧
    (placeLeft env st g).1.current_right = st.current_right ∧
    (placeLeft env st g).1.left_scale = st.left_scale ∧
    (placeLeft env st g).1.right_scale = st.right_scale := by
  unfold placeLeft
  cases hc : st.current_left <;> simp [hc]

lemma placeRight_fields (env : Env) (st : ComposerState) (g : RNG) :
    (placeRight env st g).1.current_left = st.current_left ∧
    (placeRight env st g).1.current_right = st.current_right ∧
    (placeRight env st g).1.left_scale = st.left_scale ∧
    (placeRight env st g).1.left_pos = st.left_pos ∧
    (placeRight env st g).1.right_scale = st.right_scale := by
  unfold placeRight
  cases hc : st.current_right <;> simp [hc]

/-- Placement invariant for the left zone, at the level of `placeLeft`. -/
lemma placeLeft_bounds (env : Env) (st : ComposerState) (g : RNG) (p : String)
    (hp : st.current_left = some p) :
    0 ≤ (placeLeft env st g).1.left_pos.1 ∧ 0 ≤ (placeLeft env st g).1.left_pos.2 ∧
    (((imgSize env p st.left_scale).1 : Int) ≤ 594 →
      (placeLeft env st g).1.left_pos.1 ≤ 594 - ((imgSize env p st.left_scale).1 : Int)) ∧
    (594 < ((imgSize env p st.left_scale).1 : Int) →
      (placeLeft env st g).1.left_pos.1 = 0) ∧
    (((imgSize env p st.left_scale).2 : Int) ≤ 1200 →
      (placeLeft env st g).1.left_pos.2 ≤ 1200 - ((imgSize env p st.left_scale).2 : Int)) ∧
    (1200 < ((imgSize env p st.left_scale).2 : Int) →
      (placeLeft env st g).1.left_pos.2 = 0) := by
  set s : Nat × Nat := imgSize env p st.left_scale with hsdef
  set pos : Int × Int := (placeLeft env st g).1.left_pos with hposdef
  have hz := leftZonePx_eq
  have hch : (CANVAS_H : Int) = 1200 := by norm_num [CANVAS_H]
  have hpos : pos =
      ((randint 0 (max 0 (leftZonePx - (s.1 : Int))) g).1,
       (randint 0 (max 0 ((CANVAS_H : Int) - (s.2 : Int)))
         (randint 0 (max 0 (leftZonePx - (s.1 : Int))) g).2).1) := by
    show (placeLeft env st g).1.left_pos = _
    unfold placeLeft
    rw [hp]
  have hx1 : pos.1 = (randint 0 (max 0 (leftZonePx - (s.1 : Int))) g).1 := by rw [hpos]
  have hy1 : pos.2 = (randint 0 (max 0 ((CANVAS_H : Int) - (s.2 : Int)))
      (randint 0 (max 0 (leftZonePx - (s.1 : Int))) g).2).1 := by rw [hpos]
  have hx := randint_bounds 0 (max 0 (leftZonePx - (s.1 : Int))) g (le_max_left _ _)
  have hy := randint_bounds 0 (max 0 ((CANVAS_H : Int) - (s.2 : Int)))
    (randint 0 (max 0 (leftZonePx - (s.1 : Int))) g).2 (le_max_left _ _)
  refine ⟨by rw [hx1]; exact hx.1, by rw [hy1]; exact hy.1, ?_, ?_, ?_, ?_⟩
  · intro hle
    have hm : max 0 (leftZonePx - (s.1 : Int)) = 594 - (s.1 : Int) := by
      rw [hz]; omega
    rw [hx1, hm]
    have hx' := randint_bounds 0 (594 - (s.1 : Int)) g (by omega)
    exact hx'.2
  · intro hgt
    have hm : max 0 (leftZonePx - (s.1 : Int)) = 0 := by rw [hz]; omega
    rw [hx1, hm]
    have hx' := randint_bounds 0 0 g (le_refl 0)
    omega
  · intro hle
    have hm : max 0 ((CANVAS_H : Int) - (s.2 : Int)) = 1200 - (s.2 : Int) := by
      rw [hch]; omega
    rw [hy1, hm]
    have hy' := randint_bounds 0 (1200 - (s.2 : Int))
      (randint 0 (max 0 (leftZonePx - (s.1 : Int))) g).2 (by omega)
    exact hy'.2
  · intro hgt
    have hm : max 0 ((CANVAS_H : Int) - (s.2 : Int)) = 0 := by rw [hch]; omega
    rw [hy1, hm]
    have hy' := randint_bounds 0 0 (randint 0 (max 0 (leftZonePx - (s.1 : Int))) g).2
      (le_refl 0)
    omega

/-- Placement invariant for the right zone, at the level of `placeRight`. -/
lemma placeRight_bounds (env : Env) (st : ComposerState) (g : RNG) (p : String)
    (hp : st.current_right = some p) :
    1206 ≤ (placeRight env st g).1.right_pos.1 ∧ 0 ≤ (placeRight env st g).1.right_pos.2 ∧
    (((imgSize env p st.right_scale).1 : Int) ≤ 594 →
      (placeRight env st g).1.right_pos.1 ≤ 1800 - ((imgSize env p st.right_scale).1 : Int)) ∧
    (594 < ((imgSize env p st.right_scale).1 : Int) →
      (placeRight env st g).1.right_pos.1 = 1206) ∧
    (((imgSize env p st.right_scale).2 : Int) ≤ 1200 →
      (placeRight env st g).1.right_pos.2 ≤ 1200 - ((imgSize env p st.right_scale).2 : Int)) ∧
    (1200 < ((imgSize env p st.right_scale).2 : Int) →
      (placeRight env st g).1.right_pos.2 = 0) := by
  set s : Nat × Nat := imgSize env p st.right_scale with hsdef
  set pos : Int × Int := (placeRight env st g).1.right_pos with hposdef
  have hz := rightZonePx_eq
  have hcw : (CANVAS_W : Int) = 1800 := by norm_num [CANVAS_W]
  have hch : (CANVAS_H : Int) = 1200 := by norm_num [CANVAS_H]
  have hpos : pos =
      ((randint rightZonePx (max rightZonePx ((CANVAS_W : Int) - (s.1 : Int))) g).1,
       (randint 0 (max 0 ((CANVAS_H : Int) - (s.2 : Int)))
         (randint rightZonePx (max rightZonePx ((CANVAS_W : Int) - (s.1 : Int))) g).2).1) := by
    show (placeRight env st g).1.right_pos = _
    unfold placeRight
    rw [hp]
  have hx1 : pos.1 =
      (randint rightZonePx (max rightZonePx ((CANVAS_W : Int) - (s.1 : Int))) g).1 := by
    rw [hpos]
  have hy1 : pos.2 = (randint 0 (max 0 ((CANVAS_H : Int) - (s.2 : Int)))
      (randint rightZonePx (max rightZonePx ((CANVAS_W : Int) - (s.1 : Int))) g).2).1 := by
    rw [hpos]
  have hx := randint_bounds rightZonePx (max rightZonePx ((CANVAS_W : Int) - (s.1 : Int))) g
    (le_max_left _ _)
  have hy := randint_bounds 0 (max 0 ((CANVAS_H : Int) - (s.2 : Int)))
    (randint rightZonePx (max rightZonePx ((CANVAS_W : Int) - (s.1 : Int))) g).2
    (le_max_left _ _)
  refine ⟨by rw [hx1]; omega, by rw [hy1]; exact hy.1, ?_, ?_, ?_, ?_⟩
  · intro hle
    have hm : max rightZonePx ((CANVAS_W : Int) - (s.1 : Int)) = 1800 - (s.1 : Int) := by
      rw [hz, hcw]; omega
    rw [hx1, hm, hz]
    have hx' := randint_bounds 1206 (1800 - (s.1 : Int)) g (by omega)
    exact hx'.2
  · intro hgt
    have hm : max rightZonePx ((CANVAS_W : Int) - (s.1 : Int)) = rightZonePx := by
      rw [hz, hcw]; omega
    rw [hx1, hm, hz]
    have hx' := randint_bounds 1206 1206 g (le_refl _)
    omega
  · intro hle
    have hm : max 0 ((CANVAS_H : Int) - (s.2 : Int)) = 1200 - (s.2 : Int) := by
      rw [hch]; omega
    rw [hy1, hm]
    have hy' := randint_bounds 0 (1200 - (s.2 : Int))
      (randint rightZonePx (max rightZonePx ((CANVAS_W : Int) - (s.1 : Int))) g).2 (by omega)
    exact hy'.2
  · intro hgt
    have hm : max 0 ((CANVAS_H : Int) - (s.2 : Int)) = 0 := by rw [hch]; omega
    rw [hy1, hm]
    have hy' := randint_bounds 0 0
      (randint rightZonePx (max rightZonePx ((CANVAS_W : Int) - (s.1 : Int))) g).2 (le_refl 0)
    omega

/-- The `thumbnail` rounding always lands within distance 1 of the exact
aspect-corrected value (whatever the tie-breaking key does), and is at least 1. -/
lemma roundAspect_close (q : ℚ) (hq : 0 < q) (key : Int → ℚ) :
    1 ≤ roundAspect q key ∧ |((roundAspect q key : Int) : ℚ) - q| < 1 := by
  unfold roundAspect
  refine ⟨le_max_right _ _, ?_⟩
  have hfl := Int.floor_le q
  have hfl2 := Int.sub_one_lt_floor q
  have hcl := Int.le_ceil q
  have hcl2 := Int.ceil_lt_add_one q
  have h0 : 0 ≤ ⌊q⌋ := Int.floor_nonneg.mpr (le_of_lt hq)
  rcases max_choice (if key ⌊q⌋ ≤ key ⌈q⌉ then ⌊q⌋ else ⌈q⌉) 1 with hm | hm <;> rw [hm]
  · split
    · rw [abs_lt]
      constructor <;> linarith
    · rw [abs_lt]
      constructor <;> linarith
  · have hle : (if key ⌊q⌋ ≤ key ⌈q⌉ then ⌊q⌋ else ⌈q⌉) ≤ 1 := by
      rw [← hm]
      exact le_max_left _ _
    have hq2 : q < 2 := by
      rcases le_or_lt q 1 with hq1 | hq1
      · linarith
      · split at hle
        · have : (⌊q⌋ : ℚ) ≤ 1 := by exact_mod_cast hle
          linarith
        · have : (⌈q⌉ : ℚ) ≤ 1 := by exact_mod_cast hle
          linarith
    rw [abs_lt]
    push_cast
    constructor <;> linarith

/-- Size facts for `thumbFit`: the result fits in the `700 × 700` box, never
exceeds the original dimensions, is the identity on images already within the
box, and preserves the aspect ratio up to one pixel of rounding. -/
lemma thumbFit_spec (w h : Nat) (hw : 1 ≤ w) (hh : 1 ≤ h) :
    (thumbFit w h).1 ≤ 700 ∧ (thumbFit w h).2 ≤ 700 ∧
    (thumbFit w h).1 ≤ w ∧ (thumbFit w h).2 ≤ h ∧
    (w ≤ 700 → h ≤ 700 → thumbFit w h = (w, h)) ∧
    |((thumbFit w h).1 : Int) * h - ((thumbFit w h).2 : Int) * w| < (max w h : Int) := by
  have hwq : (0 : ℚ) < w := by exact_mod_cast Nat.lt_of_lt_of_le Nat.zero_lt_one hw
  have hhq : (0 : ℚ) < h := by exact_mod_cast Nat.lt_of_lt_of_le Nat.zero_lt_one hh
  have hmaxpos : (0 : Int) < max (w : Int) (h : Int) := by
    have h1 : (0 : Int) < (w : Int) := by exact_mod_cast Nat.lt_of_lt_of_le Nat.zero_lt_one hw
    exact lt_of_lt_of_le h1 (le_max_left _ _)
  have hrep7 : (REP_MAX : ℚ) = 700 := by norm_num [REP_MAX]
  by_cases hsmall : REP_MAX ≥ w ∧ REP_MAX ≥ h
  · unfold thumbFit
    rw [if_pos hsmall]
    refine ⟨hsmall.1, hsmall.2, le_refl w, le_refl h, fun _ _ => rfl, ?_⟩
    have hz : ((w : Int) * h - (h : Int) * w) = 0 := by ring
    rw [hz, abs_zero]
    exact hmaxpos
  · have hsmall' : ¬ (w ≤ 700 ∧ h ≤ 700) := hsmall
    unfold thumbFit
    rw [if_neg hsmall]
    by_cases hbr : (REP_MAX : ℚ) / (REP_MAX : ℚ) ≥ (w : ℚ) / (h : ℚ)
    · rw [if_pos hbr]
      have hasp1 : (w : ℚ) / h ≤ 1 := by
        rw [hrep7] at hbr
        have : (700 : ℚ) / 700 = 1 := by norm_num
        rw [this] at hbr
        exact hbr
      have hwh : w ≤ h := by
        have := (div_le_one hhq).mp hasp1
        exact_mod_cast this
      have hh700 : 700 < h := by omega
      have hhq700 : (700 : ℚ) < h := by exact_mod_cast hh700
      have hqpos : 0 < (REP_MAX : ℚ) * ((w : ℚ) / h) := by
        rw [hrep7]
        positivity
      obtain ⟨hr1, hr2⟩ := roundAspect_close ((REP_MAX : ℚ) * ((w : ℚ) / h)) hqpos
        (fun n => |(w : ℚ) / h - (n : ℚ) / (REP_MAX : ℚ)|)
      set r := roundAspect ((REP_MAX : ℚ) * ((w : ℚ) / h))
        (fun n => |(w : ℚ) / h - (n : ℚ) / (REP_MAX : ℚ)|) with hrdef
      have habs := abs_lt.mp hr2
      have hq700 : (REP_MAX : ℚ) * ((w : ℚ) / h) ≤ 700 := by
        rw [hrep7]
        nlinarith
      have hqw : (REP_MAX : ℚ) * ((w : ℚ) / h) < w := by
        rw [hrep7, ← mul_div_assoc, div_lt_iff hhq]
        nlinarith
      have hrle700 : r ≤ 700 := by
        have hq1 : (r : ℚ) < 701 := by linarith
        have hq2 : r < 701 := by exact_mod_cast hq1
        omega
      have hrlew : r ≤ w := by
        have hq1 : (r : ℚ) < w + 1 := by linarith
        have hq2 : r < (w : Int) + 1 := by exact_mod_cast hq1
        omega
      have htn : ((r.toNat : Nat) : Int) = r := Int.toNat_of_nonneg (by omega)
      refine ⟨by omega, by norm_num [REP_MAX], by omega, by
        show REP_MAX ≤ h
        have : REP_MAX = 700 := rfl
        omega, fun h1 h2 => (hsmall' ⟨h1, h2⟩).elim, ?_⟩
      show |((r.toNat : Nat) : Int) * h - ((REP_MAX : Nat) : Int) * w| < (max w h : Int)
      rw [htn]
      have hrepInt : ((REP_MAX : Nat) : Int) = 700 := rfl
      rw [hrepInt]
      have hqh : ((REP_MAX : ℚ) * ((w : ℚ) / h)) * h = 700 * w := by
        rw [hrep7]
        field_simp
      have hexp : (r : ℚ) * h - 700 * w =
          ((r : ℚ) - (REP_MAX : ℚ) * ((w : ℚ) / h)) * h := by
        rw [sub_mul, hqh]
      have habs2 : |(r : ℚ) * h - 700 * w| < h := by
        rw [hexp, abs_mul, abs_of_pos hhq]
        calc |(r : ℚ) - (REP_MAX : ℚ) * ((w : ℚ) / h)| * h < 1 * h :=
              mul_lt_mul_of_pos_right hr2 hhq
          _ = h := one_mul _
      have hfin : |((r * h - 700 * w : Int) : ℚ)| < max (w : ℚ) (h : ℚ) := by
        push_cast
        have hhle : (h : ℚ) ≤ max (w : ℚ) (h : ℚ) := le_max_right _ _
        calc |(r : ℚ) * h - 700 * w| < h := habs2
          _ ≤ _ := hhle
      exact_mod_cast hfin
    · rw [if_neg hbr]
      have hasp1 : 1 < (w : ℚ) / h := by
        rw [hrep7] at hbr
        have h1 : (700 : ℚ) / 700 = 1 := by norm_num
        rw [h1] at hbr
        linarith [not_le.mp hbr]
      have hwh : h ≤ w := by
        have h2 : (h : ℚ) < w := by
          have := (one_lt_div hhq).mp hasp1
          linarith
        have h3 : h < w := by exact_mod_cast h2
        omega
      have hw700 : 700 < w := by omega
      have hwq700 : (700 : ℚ) < w := by exact_mod_cast hw700
      have hqeq : (REP_MAX : ℚ) / ((w : ℚ) / h) = 700 * h / w := by
        rw [hrep7, div_div_eq_mul_div]
      have hqpos : 0 < (REP_MAX : ℚ) / ((w : ℚ) / h) := by
        rw [hqeq]
        positivity
      obtain ⟨hr1, hr2⟩ := roundAspect_close ((REP_MAX : ℚ) / ((w : ℚ) / h)) hqpos
        (fun n => if n = 0 then 0 else |(w : ℚ) / h - (REP_MAX : ℚ) / (n : ℚ)|)
      set r := roundAspect ((REP_MAX : ℚ) / ((w : ℚ) / h))
        (fun n => if n = 0 then 0 else |(w : ℚ) / h - (REP_MAX : ℚ) / (n : ℚ)|) with hrdef
      have habs := abs_lt.mp hr2
      have hhw : (h : ℚ) ≤ w := by exact_mod_cast hwh
      have hq700 : (REP_MAX : ℚ) / ((w : ℚ) / h) ≤ 700 := by
        rw [hqeq, div_le_iff hwq]
        nlinarith
      have hqh : (REP_MAX : ℚ) / ((w : ℚ) / h) < h := by
        rw [hqeq, div_lt_iff hwq]
        nlinarith [mul_lt_mul_of_pos_left hwq700 hhq]
      have hrle700 : r ≤ 700 := by
        have hq1 : (r : ℚ) < 701 := by linarith
        have hq2 : r < 701 := by exact_mod_cast hq1
        omega
      have hrleh : r ≤ h := by
        have hq1 : (r : ℚ) < h + 1 := by linarith
        have hq2 : r < (h : Int) + 1 := by exact_mod_cast hq1
        omega
      have htn : ((r.toNat : Nat) : Int) = r := Int.toNat_of_nonneg (by omega)
      refine ⟨by norm_num [REP_MAX], by omega, by
        show REP_MAX ≤ w
        have : REP_MAX = 700 := rfl
        omega, by omega, fun h1 h2 => (hsmall' ⟨h1, h2⟩).elim, ?_⟩
      show |((REP_MAX : Nat) : Int) * h - ((r.toNat : Nat) : Int) * w| < (max w h : Int)
      rw [htn]
      have hrepInt : ((REP_MAX : Nat) : Int) = 700 := rfl
      rw [hrepInt]
      have hqw : ((REP_MAX : ℚ) / ((w : ℚ) / h)) * w = 700 * h := by
        rw [hqeq]
        field_simp
      have hexp : (700 : ℚ) * h - (r : ℚ) * w =
          (((REP_MAX : ℚ) / ((w : ℚ) / h)) - (r : ℚ)) * w := by
        rw [sub_mul, hqw]
      have habs2 : |(700 : ℚ) * h - (r : ℚ) * w| < w := by
        rw [hexp, abs_mul, abs_of_pos hwq, abs_sub_comm]
        calc |(r : ℚ) - (REP_MAX : ℚ) / ((w : ℚ) / h)| * w < 1 * w :=
              mul_lt_mul_of_pos_right hr2 hwq
          _ = w := one_mul _
      have hfin : |((700 * h - r * w : Int) : ℚ)| < max (w : ℚ) (h : ℚ) := by
        push_cast
        have hwle : (w : ℚ) ≤ max (w : ℚ) (h : ℚ) := le_max_left _ _
        calc |(700 : ℚ) * h - (r : ℚ) * w| < w := habs2
          _ ≤ _ := hwle
      exact_mod_cast hfin

lemma thumbFit_500 : thumbFit 500 500 = (500, 500) := by
  unfold thumbFit
  rw [if_pos (by decide : REP_MAX ≥ 500 ∧ REP_MAX ≥ 500)]

lemma repPlacement_500 : repPlacement 500 500 = ((500, 500), (650, 350)) := by
  unfold repPlacement
  rw [thumbFit_500]
  decide

lemma thumbFit_1400_700 : thumbFit 1400 700 = (700, 350) := by
  unfold thumbFit
  rw [if_neg (by decide : ¬ (REP_MAX ≥ 1400 ∧ REP_MAX ≥ 700))]
  rw [if_neg (by norm_num [REP_MAX] :
    ¬ (REP_MAX : ℚ) / (REP_MAX : ℚ) ≥ ((1400 : Nat) : ℚ) / ((700 : Nat) : ℚ))]
  have hq : (REP_MAX : ℚ) / (((1400 : Nat) : ℚ) / ((700 : Nat) : ℚ)) = ((350 : Int) : ℚ) := by
    norm_num [REP_MAX]
  rw [hq]
  unfold roundAspect
  rw [Int.floor_intCast, Int.ceil_intCast, if_pos (le_refl _)]
  decide

lemma repPlacement_1400_700 : repPlacement 1400 700 = ((700, 350), (550, 425)) := by
  unfold repPlacement
  rw [thumbFit_1400_700]
  decide

/-- With an unreadable file system every layer is skipped. -/
lemma layers_none (st : ComposerState) (rep_path : String) :
    bgLayer (fun _ => none) st = [] ∧ leftLayer (fun _ => none) st = [] ∧
    rightLayer (fun _ => none) st = [] ∧ repLayer (fun _ => none) rep_path = [] := by
  refine ⟨?_, ?_, ?_, ?_⟩
  · unfold bgLayer
    cases st.current_bg <;> rfl
  · unfold leftLayer
    cases st.current_left <;> rfl
  · unfold rightLayer
    cases st.current_right <;> rfl
  · unfold repLayer
    split <;> rfl

end Composer

/-! # Claim theorems -/

namespace BgRemove

/-- **C1.** In the Direct-Inference backend, the normalized mask is binarized at
threshold 127 and its connected components computed with 8-connectivity; when
more than one foreground component exists (`num_labels > 2`), only the
component of largest pixel area is kept: every mask pixel outside the largest
component's binary footprint becomes 0 (`bitwise_and` with 0), and every pixel
inside it keeps its original soft-alpha value (`bitwise_and` with 255). -/
theorem c1_largest_component_filter {H W : Nat} (m : Mask H W)
    (hm : ∀ p, m p ≤ 255) (L : Pixel H W) (hL : L ∈ reps m)
    (hmax : ∀ r ∈ reps m, r ≠ L → area m r < area m L)
    (hmulti : 2 < numLabels m) :
    (∀ p, p ∈ comp m L → fragmentFilter m p = m p) ∧
    (∀ p, p ∉ comp m L → fragmentFilter m p = 0) := by
  have hlr := largestRep_eq m L hL hmax
  unfold fragmentFilter
  rw [if_pos hmulti, hlr]
  constructor
  · intro p hp
    simp only [hp, if_pos]
    exact land_255 (m p) (Nat.lt_succ_of_le (hm p))
  · intro p hp
    show Nat.land (m p) (if p ∈ comp m L then 255 else 0) = 0
    rw [if_neg hp]
    exact land_zero (m p)

/-- Witness for C1: on the strip `[200, 180, 0, 150]` (areas 2 and 1) the
filter keeps the soft value 180 inside the largest component and zeroes the
150 of the smaller blob. -/
theorem c1_largest_component_filter_witness :
    c1L ∈ reps c1mask ∧ 2 < numLabels c1mask ∧
    fragmentFilter c1mask (0, 1) = 180 ∧ fragmentFilter c1mask (0, 3) = 0 := by
  have h := c1_largest_component_filter c1mask (by decide) c1L (by decide)
    (by decide) (by decide)
  refine ⟨by decide, by decide, ?_, h.2 (0, 3) (by decide)⟩
  have h1 := h.1 (0, 1) (by decide)
  rw [h1]
  decide

/-- **C5.** The Direct-Inference backend resizes the input to a fixed 320×320
square (bilinear kernel `rs`), normalizes each channel as
`(px/255 − mean)/std` with the fixed means and stds, reorders to channel-first
layout; the raw activation map is min-max normalized as
`(x − min)/(max − min + 1e-8)`, scaled to `[0, 255]` (landing in `[0, 254]`,
so the byte cast never wraps); the filtered mask is resized back with the same
bilinear kernel to the original resolution, and the output RGBA image keeps
the input's width, height and color channels. -/
theorem c5_direct_inference_pipeline (rs : Resample)
    (net : (Fin 3 → Fin 320 → Fin 320 → ℚ) → Grid) (img : Img) :
    (remove_background rs net img).width = img.width ∧
    (remove_background rs net img).height = img.height ∧
    (resizeCh rs img INPUT_SIZE INPUT_SIZE).width = 320 ∧
    (resizeCh rs img INPUT_SIZE INPUT_SIZE).height = 320 ∧
    (∀ (c : Fin 3) (y x : Fin 320), preprocess rs img c y x =
      ((resizeCh rs img 320 320).px x.val y.val c.val / 255 - chMean c) / chStd c) ∧
    (∀ p, normOut (net (preprocess rs img)) p =
      (net (preprocess rs img) p - outMin (net (preprocess rs img))) /
        (outMax (net (preprocess rs img)) - outMin (net (preprocess rs img)) + 1e-8)) ∧
    (∀ (o : Grid) p, softMask o p = (⌊normOut o p * 255⌋).toNat ∧ softMask o p ≤ 254) ∧
    (∀ x y, (remove_background rs net img).px x y 3 =
      rs (maskField (fragmentFilter (softMask (net (preprocess rs img)))))
        INPUT_SIZE INPUT_SIZE img.width img.height x y) ∧
    (∀ x y, (remove_background rs net img).px x y 0 = img.px x y 0 ∧
      (remove_background rs net img).px x y 1 = img.px x y 1 ∧
      (remove_background rs net img).px x y 2 = img.px x y 2) :=
  ⟨rfl, rfl, rfl, rfl, fun _ _ _ => rfl, fun _ => rfl,
    fun o p => softMask_byte o p, fun _ _ => rfl, fun _ _ => ⟨rfl, rfl, rfl⟩⟩

/-- **C8.** If the raw activation map is constant (`max == min`), the `1e-8`
guard keeps the min-max denominator nonzero — `produce_mask` does not divide
by zero and does not raise — and the normalized mask is well-defined: all
zeros. -/
theorem c8_minmax_no_div_by_zero (rs : Resample)
    (net : (Fin 3 → Fin 320 → Fin 320 → ℚ) → Grid) (img : Img) (c : ℚ)
    (h : ∀ p, net (preprocess rs img) p = c) :
    outMax (net (preprocess rs img)) - outMin (net (preprocess rs img)) + 1e-8 ≠ 0 ∧
    (∀ p, softMask (net (preprocess rs img)) p = 0) := by
  have hfun : net (preprocess rs img) = fun _ => c := funext h
  refine ⟨ne_of_gt (denom_pos _), fun p => ?_⟩
  unfold softMask normOut outMin outMax
  rw [hfun, Finset.inf'_const, Finset.sup'_const]
  norm_num

/-- Witness for C8: a constant activation map of value 3. -/
theorem c8_minmax_no_div_by_zero_witness :
    c8net (preprocess c8rs c8img) ((0 : Fin 320), (0 : Fin 320)) = 3 ∧
    outMax (c8net (preprocess c8rs c8img)) - outMin (c8net (preprocess c8rs c8img))
      + 1e-8 ≠ 0 ∧
    softMask (c8net (preprocess c8rs c8img)) ((0 : Fin 320), (0 : Fin 320)) = 0 := by
  have h := c8_minmax_no_div_by_zero c8rs c8net c8img 3 (fun _ => rfl)
  exact ⟨rfl, h.1, h.2 _⟩

/-- **C3.** In `RemoveThread.run`, a single image's failure aborts the
remaining batch immediately: the trace ends at a single error event (reported
exactly once), every image before the failure was saved (one save and one
progress signal each, plus the one progress signal of the failing image), no
later image is processed or written, and no completion summary (`sig_done` or
the final `100 %` progress) is emitted. -/
theorem c3_batch_abort_on_failure (rs : Resample)
    (net : (Fin 3 → Fin 320 → Fin 320 → ℚ) → Grid)
    (load : String → Except String Img) (outDir : String) (pre post : List String)
    (failP e : String)
    (hok : ∀ q ∈ pre, ∃ im, load q = Except.ok im)
    (hfail : load failP = Except.error e) :
    (RemoveThread.run rs net true true load (pre ++ failP :: post) outDir).getLast? =
      some (Event.error ("처리 오류 (" ++ outName failP ++ "):\n" ++ e)) ∧
    (RemoveThread.run rs net true true load (pre ++ failP :: post) outDir).countP
      Event.isError = 1 ∧
    (RemoveThread.run rs net true true load (pre ++ failP :: post) outDir).countP
      Event.isDone = 0 ∧
    (RemoveThread.run rs net true true load (pre ++ failP :: post) outDir).countP
      Event.isSave = pre.length ∧
    (RemoveThread.run rs net true true load (pre ++ failP :: post) outDir).countP
      Event.isProgress = pre.length + 1 := by
  have hrun : RemoveThread.run rs net true true load (pre ++ failP :: post) outDir =
      runLoop rs net load outDir (pre ++ failP :: post).length 0 true
        (pre ++ failP :: post) := rfl
  rw [hrun, runLoop_fail rs net load outDir (pre ++ failP :: post).length failP e post
    hfail pre 0 true hok]
  have hcnt := okTrace_counts rs net load outDir (pre ++ failP :: post).length
    pre 0 true hok
  refine ⟨?_, ?_, ?_, ?_, ?_⟩
  · rw [show okTrace rs net load outDir (pre ++ failP :: post).length 0 true pre ++
        [Event.progress ((0 + pre.length) * 100 / (pre ++ failP :: post).length)
          (outName failP),
         Event.error ("처리 오류 (" ++ outName failP ++ "):\n" ++ e)] =
        (okTrace rs net load outDir (pre ++ failP :: post).length 0 true pre ++
          [Event.progress ((0 + pre.length) * 100 / (pre ++ failP :: post).length)
            (outName failP)]) ++
          [Event.error ("처리 오류 (" ++ outName failP ++ "):\n" ++ e)] from by
        simp]
    exact List.getLast?_concat _
  · rw [List.countP_append, hcnt.1]
    simp [List.countP_cons, Event.isError]
  · rw [List.countP_append, hcnt.2.1]
    simp [List.countP_cons, Event.isDone]
  · rw [List.countP_append, hcnt.2.2.1]
    simp [List.countP_cons, Event.isSave]
  · rw [List.countP_append, hcnt.2.2.2]
    simp [List.countP_cons, Event.isProgress]

/-- Witness for C3: batch `["a", "bad", "c"]` where `"bad"` fails to decode —
one error, one save (for `"a"`), no completion summary. -/
theorem c3_batch_abort_on_failure_witness :
    c3load "bad" = Except.error "boom" ∧
    (RemoveThread.run c8rs c8net true true c3load (["a"] ++ "bad" :: ["c"]) "out").countP
      Event.isError = 1 ∧
    (RemoveThread.run c8rs c8net true true c3load (["a"] ++ "bad" :: ["c"]) "out").countP
      Event.isDone = 0 ∧
    (RemoveThread.run c8rs c8net true true c3load (["a"] ++ "bad" :: ["c"]) "out").countP
      Event.isSave = 1 := by
  have h := c3_batch_abort_on_failure c8rs c8net c3load "out" ["a"] ["c"] "bad" "boom"
    (fun q hq => by
      rw [List.mem_singleton] at hq
      subst hq
      exact ⟨c8img, rfl⟩)
    rfl
  exact ⟨rfl, h.2.1, h.2.2.1, h.2.2.2.1⟩

end BgRemove

namespace Composer

/-- **C2.** Invoking the randomize operation (`MainWindow._randomize`) with an
empty background pool or an empty representative-image pool fails with a
validation warning before mutating the composition: no selection field, no
position and not the `locked` flag changes, and no randomness is consumed. -/
theorem c2_randomize_validation (env : Env) (ui : UIInputs) (st : ComposerState)
    (g : RNG) (h : ui.bgPool = [] ∨ ui.repPool = []) :
    (mainRandomize env ui st g).1 ≠ RandomizeResult.ok ∧
    (mainRandomize env ui st g).2.1.current_bg = st.current_bg ∧
    (mainRandomize env ui st g).2.1.current_left = st.current_left ∧
    (mainRandomize env ui st g).2.1.current_right = st.current_right ∧
    (mainRandomize env ui st g).2.1.left_pos = st.left_pos ∧
    (mainRandomize env ui st g).2.1.right_pos = st.right_pos ∧
    (mainRandomize env ui st g).2.1.locked = st.locked ∧
    (mainRandomize env ui st g).2.2 = g := by
  unfold mainRandomize
  rcases h with h | h
  · have hb : (syncState ui st).backgrounds = [] := h
    rw [if_pos hb]
    exact ⟨fun hh => RandomizeResult.noConfusion hh, rfl, rfl, rfl, rfl, rfl, rfl, rfl⟩
  · by_cases hb : (syncState ui st).backgrounds = []
    · rw [if_pos hb]
      exact ⟨fun hh => RandomizeResult.noConfusion hh, rfl, rfl, rfl, rfl, rfl, rfl, rfl⟩
    · have hr : (syncState ui st).rep_images = [] := h
      rw [if_neg hb, if_pos hr]
      exact ⟨fun hh => RandomizeResult.noConfusion hh, rfl, rfl, rfl, rfl, rfl, rfl, rfl⟩

/-- Witness for C2: with every pool empty, the operation warns and `locked`
stays `false`. -/
theorem c2_randomize_validation_witness :
    (mainRandomize (fun _ => none) c2ui emptyState (fun _ => 0)).1 ≠ RandomizeResult.ok ∧
    (mainRandomize (fun _ => none) c2ui emptyState (fun _ => 0)).2.1.locked = false := by
  have h := c2_randomize_validation (fun _ => none) c2ui emptyState (fun _ => 0) (Or.inl rfl)
  exact ⟨h.1, h.2.2.2.2.2.2.1⟩

/-- **C10.** `ComposerState.randomize` itself sets `locked = True`
unconditionally — even on a fully empty state, where no selection or placement
is made and the result is exactly the fresh state with `locked` flipped — so
`locked = true` does not imply that any background or decoration is selected. -/
theorem c10_locked_unconditional (env : Env) (st : ComposerState) (g : RNG) :
    ((ComposerState.randomize env st g).1).locked = true ∧
    (∀ g2 : RNG, (ComposerState.randomize env emptyState g2).1 =
      { emptyState with locked := true }) :=
  ⟨rfl, fun _ => rfl⟩

/-- **C9.** `compose` is a deterministic pure function of the state and the
representative path: it leaves the session (state and random stream) untouched,
its output does not depend on the random stream, and two consecutive `compose`
calls return identical canvases. -/
theorem c9_compose_deterministic (env : Env) (st : ComposerState) (g g2 : RNG)
    (rep_path : String) :
    (stepSys env ⟨st, g⟩ (Act.compose rep_path)).1 = ⟨st, g⟩ ∧
    (stepSys env ⟨st, g⟩ (Act.compose rep_path)).2 =
      (stepSys env ⟨st, g2⟩ (Act.compose rep_path)).2 ∧
    (stepSys env (stepSys env ⟨st, g⟩ (Act.compose rep_path)).1 (Act.compose rep_path)).2 =
      (stepSys env ⟨st, g⟩ (Act.compose rep_path)).2 :=
  ⟨rfl, rfl, rfl⟩

/-- **C7.** `compose` always returns a canvas of exactly `1800 × 1200` filled
with opaque neutral gray `(220,220,220)`; its paste list decomposes into four
per-layer contributions, each of which reads only its own layer's fields (so a
load failure in one layer cannot disturb the others); and even when every
layer's file fails to load the canvas is still produced, empty but usable. -/
theorem c7_compose_fault_isolation (env : Env) (st : ComposerState) (rep_path : String) :
    (ComposerState.compose env st rep_path).width = 1800 ∧
    (ComposerState.compose env st rep_path).height = 1200 ∧
    (ComposerState.compose env st rep_path).base = (220, 220, 220) ∧
    (ComposerState.compose env st rep_path).pastes =
      bgLayer env st ++ leftLayer env st ++ rightLayer env st ++ repLayer env rep_path ∧
    (∀ st2 : ComposerState, bgLayer env st2 =
      bgLayer env { emptyState with current_bg := st2.current_bg }) ∧
    (∀ st2 : ComposerState, leftLayer env st2 =
      leftLayer env { emptyState with
        current_left := st2.current_left
        left_scale := st2.left_scale
        left_pos := st2.left_pos }) ∧
    (∀ st2 : ComposerState, rightLayer env st2 =
      rightLayer env { emptyState with
        current_right := st2.current_right
        right_scale := st2.right_scale
        right_pos := st2.right_pos }) ∧
    ComposerState.compose (fun _ => none) st rep_path =
      ⟨1800, 1200, (220, 220, 220), [], st.saturation, st.brightness⟩ := by
  refine ⟨rfl, rfl, rfl, rfl, fun _ => rfl, fun _ => rfl, fun _ => rfl, ?_⟩
  have h := layers_none st rep_path
  unfold ComposerState.compose
  rw [h.1, h.2.1, h.2.2.1, h.2.2.2]
  rfl

/-- **C6.** After every `randomize()` call, a selected left decoration of
scaled size `w × h` sits at a position with `0 ≤ x ≤ int(1800·0.33) − w = 594 − w`
and `0 ≤ y ≤ 1200 − h`; a selected right decoration satisfies
`1206 = int(1800·0.67) ≤ x ≤ 1800 − w` and `0 ≤ y ≤ 1200 − h`; when the scaled
decoration is wider or taller than its zone allows, the range degenerates to
the zone start (`x = 0` resp. `x = 1206`, `y = 0`). -/
theorem c6_randomize_position_bounds (env : Env) (st : ComposerState) (g : RNG) :
    leftZonePx = 594 ∧ rightZonePx = 1206 ∧
    (∀ p, ((ComposerState.randomize env st g).1).current_left = some p →
      0 ≤ ((ComposerState.randomize env st g).1).left_pos.1 ∧
      0 ≤ ((ComposerState.randomize env st g).1).left_pos.2 ∧
      (((imgSize env p ((ComposerState.randomize env st g).1).left_scale).1 : Int) ≤ 594 →
        ((ComposerState.randomize env st g).1).left_pos.1 ≤
          594 - ((imgSize env p ((ComposerState.randomize env st g).1).left_scale).1 : Int)) ∧
      (594 < ((imgSize env p ((ComposerState.randomize env st g).1).left_scale).1 : Int) →
        ((ComposerState.randomize env st g).1).left_pos.1 = 0) ∧
      (((imgSize env p ((ComposerState.randomize env st g).1).left_scale).2 : Int) ≤ 1200 →
        ((ComposerState.randomize env st g).1).left_pos.2 ≤
          1200 - ((imgSize env p ((ComposerState.randomize env st g).1).left_scale).2 : Int)) ∧
      (1200 < ((imgSize env p ((ComposerState.randomize env st g).1).left_scale).2 : Int) →
        ((ComposerState.randomize env st g).1).left_pos.2 = 0)) ∧
    (∀ p, ((ComposerState.randomize env st g).1).current_right = some p →
      1206 ≤ ((ComposerState.randomize env st g).1).right_pos.1 ∧
      0 ≤ ((ComposerState.randomize env st g).1).right_pos.2 ∧
      (((imgSize env p ((ComposerState.randomize env st g).1).right_scale).1 : Int) ≤ 594 →
        ((ComposerState.randomize env st g).1).right_pos.1 ≤
          1800 - ((imgSize env p ((ComposerState.randomize env st g).1).right_scale).1 : Int)) ∧
      (594 < ((imgSize env p ((ComposerState.randomize env st g).1).right_scale).1 : Int) →
        ((ComposerState.randomize env st g).1).right_pos.1 = 1206) ∧
      (((imgSize env p ((ComposerState.randomize env st g).1).right_scale).2 : Int) ≤ 1200 →
        ((ComposerState.randomize env st g).1).right_pos.2 ≤
          1200 - ((imgSize env p ((ComposerState.randomize env st g).1).right_scale).2 : Int)) ∧
      (1200 < ((imgSize env p ((ComposerState.randomize env st g).1).right_scale).2 : Int) →
        ((ComposerState.randomize env st g).1).right_pos.2 = 0)) := by
  have hL := placeLeft_fields env (selectPhase st g).1 (selectPhase st g).2
  have hst : (ComposerState.randomize env st g).1 =
      { (placeRight env (placeLeft env (selectPhase st g).1 (selectPhase st g).2).1
          (placeLeft env (selectPhase st g).1 (selectPhase st g).2).2).1
        with locked := true } := rfl
  have hR := placeRight_fields env
    (placeLeft env (selectPhase st g).1 (selectPhase st g).2).1
    (placeLeft env (selectPhase st g).1 (selectPhase st g).2).2
  refine ⟨leftZonePx_eq, rightZonePx_eq, ?_, ?_⟩
  · intro p hp
    have hcl : (placeLeft env (selectPhase st g).1 (selectPhase st g).2).1.current_left =
        some p := by
      rw [← hR.1]
      exact hp
    have hsel : (selectPhase st g).1.current_left = some p := by
      rw [← hL.1]
      exact hcl
    have hscale : ((ComposerState.randomize env st g).1).left_scale =
        (selectPhase st g).1.left_scale := by
      rw [hst]
      show (placeRight env _ _).1.left_scale = _
      rw [hR.2.2.1, hL.2.2.1]
    have hpos : ((ComposerState.randomize env st g).1).left_pos =
        (placeLeft env (selectPhase st g).1 (selectPhase st g).2).1.left_pos := by
      rw [hst]
      show (placeRight env _ _).1.left_pos = _
      rw [hR.2.2.2.1]
    have hb := placeLeft_bounds env (selectPhase st g).1 (selectPhase st g).2 p hsel
    rw [← hscale, ← hpos] at hb
    exact hb
  · intro p hp
    have hcr : (placeLeft env (selectPhase st g).1 (selectPhase st g).2).1.current_right =
        some p := by
      rw [← hR.2.1]
      exact hp
    have hscale : ((ComposerState.randomize env st g).1).right_scale =
        (placeLeft env (selectPhase st g).1 (selectPhase st g).2).1.right_scale := by
      rw [hst]
      show (placeRight env _ _).1.right_scale = _
      rw [hR.2.2.2.2]
    have hpos : ((ComposerState.randomize env st g).1).right_pos =
        (placeRight env (placeLeft env (selectPhase st g).1 (selectPhase st g).2).1
          (placeLeft env (selectPhase st g).1 (selectPhase st g).2).2).1.right_pos := by
      rw [hst]
    have hb := placeRight_bounds env
      (placeLeft env (selectPhase st g).1 (selectPhase st g).2).1
      (placeLeft env (selectPhase st g).1 (selectPhase st g).2).2 p hcr
    rw [← hscale, ← hpos] at hb
    exact hb

/-- Witness for C6: with singleton pools, a 100×100 left decoration at scale
0.5 (scaled size 50×50) and the all-zero stream, the left selection is made and
its x-position obeys `0 ≤ x ≤ 594 − 50`. -/
theorem c6_randomize_position_bounds_witness :
    ((ComposerState.randomize c6env c6st c6g).1).current_left = some "L" ∧
    (((imgSize c6env "L" ((ComposerState.randomize c6env c6st c6g).1).left_scale).1 : Int) ≤ 594) ∧
    0 ≤ ((ComposerState.randomize c6env c6st c6g).1).left_pos.1 ∧
    ((ComposerState.randomize c6env c6st c6g).1).left_pos.1 ≤
      594 - ((imgSize c6env "L" ((ComposerState.randomize c6env c6st c6g).1).left_scale).1 : Int) := by
  have h := c6_randomize_position_bounds c6env c6st c6g
  have hcl : ((ComposerState.randomize c6env c6st c6g).1).current_left = some "L" := by
    decide
  have hsc : ((ComposerState.randomize c6env c6st c6g).1).left_scale = 0.5 := rfl
  have hval : (imgSize c6env "L" ((ComposerState.randomize c6env c6st c6g).1).left_scale).1
      = 50 := by
    rw [hsc]
    show (imgSize c6env "L" 0.5).1 = 50
    have henv : c6env "L" = some (100, 100) := rfl
    unfold imgSize
    rw [henv]
    show (⌊(100 : ℚ) * 0.5⌋).toNat = 50
    have h50 : (100 : ℚ) * 0.5 = ((50 : Int) : ℚ) := by norm_num
    rw [h50, Int.floor_intCast]
    rfl
  have hb := h.2.2.1 "L" hcl
  have hle : ((imgSize c6env "L"
      ((ComposerState.randomize c6env c6st c6g).1).left_scale).1 : Int) ≤ 594 := by
    rw [hval]
    norm_num
  exact ⟨hcl, hle, hb.1, hb.2.2.1 hle⟩

/-- **C4.** In `compose`, the representative image is composited last, on top
of every other layer; its thumbnail size fits the `700 × 700` box, never
exceeds the natural size (downscale-only), is the identity when the image
already fits, preserves the aspect ratio up to one pixel of rounding, and it
is pasted centered: `x = (1800 − w) // 2`, `y = (1200 − h) // 2`.  In
particular a 500×500 representative stays 500×500 at (650, 350) and a
1400×700 one becomes 700×350 at (550, 425). -/
theorem c4_representative_layer (env : Env) (st : ComposerState) (rep_path : String)
    (w h : Nat) (hw : 1 ≤ w) (hh : 1 ≤ h) (hrep : rep_path ≠ "")
    (henv : env rep_path = some (w, h)) :
    (∃ pre, (ComposerState.compose env st rep_path).pastes =
      pre ++ [⟨Layer.rep, rep_path, (repPlacement w h).2, (repPlacement w h).1⟩]) ∧
    (repPlacement w h).1 = thumbFit w h ∧
    (repPlacement w h).2 =
      (((CANVAS_W : Int) - ((thumbFit w h).1 : Int)) / 2,
       ((CANVAS_H : Int) - ((thumbFit w h).2 : Int)) / 2) ∧
    (thumbFit w h).1 ≤ 700 ∧ (thumbFit w h).2 ≤ 700 ∧
    (thumbFit w h).1 ≤ w ∧ (thumbFit w h).2 ≤ h ∧
    (w ≤ 700 → h ≤ 700 → thumbFit w h = (w, h)) ∧
    |((thumbFit w h).1 : Int) * h - ((thumbFit w h).2 : Int) * w| < (max w h : Int) ∧
    repPlacement 500 500 = ((500, 500), (650, 350)) ∧
    repPlacement 1400 700 = ((700, 350), (550, 425)) := by
  have hspec := thumbFit_spec w h hw hh
  have hlayer : repLayer env rep_path =
      [⟨Layer.rep, rep_path, (repPlacement w h).2, (repPlacement w h).1⟩] := by
    unfold repLayer
    rw [if_neg hrep, henv]
  refine ⟨⟨bgLayer env st ++ leftLayer env st ++ rightLayer env st, ?_⟩, rfl, ?_,
    hspec.1, hspec.2.1, hspec.2.2.1, hspec.2.2.2.1, hspec.2.2.2.2.1, hspec.2.2.2.2.2,
    repPlacement_500, repPlacement_1400_700⟩
  · show bgLayer env st ++ leftLayer env st ++ rightLayer env st ++ repLayer env rep_path = _
    rw [hlayer]
  · show (Int.fdiv ((CANVAS_W : Int) - ((thumbFit w h).1 : Int)) 2,
        Int.fdiv ((CANVAS_H : Int) - ((thumbFit w h).2 : Int)) 2) = _
    rw [Int.fdiv_eq_ediv _ (by norm_num : (0 : Int) ≤ 2),
      Int.fdiv_eq_ediv _ (by norm_num : (0 : Int) ≤ 2)]

/-- Witness for C4: a 500×500 representative stays 500×500 and is pasted last
at (650, 350). -/
theorem c4_representative_layer_witness :
    (∃ pre, (ComposerState.compose c4env emptyState "r").pastes =
      pre ++ [⟨Layer.rep, "r", (repPlacement 500 500).2, (repPlacement 500 500).1⟩]) ∧
    repPlacement 500 500 = ((500, 500), (650, 350)) := by
  have h := c4_representative_layer c4env emptyState "r" 500 500 (by norm_num)
    (by norm_num) (by decide) rfl
  exact ⟨h.1, h.2.2.2.2.2.2.2.2.2.1⟩

end Composer
